import Mathlib

/-!
# Verification of the telegram book bot (`main.py`)

Shallow embedding of the catalog-browsing bot: the action-token registry,
the navigation handlers, the pagination URL derivation, the session
(cookie) refresh logic and the chunked message sending, each translated
from `src/main.py`.

Modelling conventions:
* Python strings are Lean `String`s; `None` is `Option.none`.
* The token of an `Action` in the source is
  `int(hashlib.sha256(hash_str).hexdigest(), 16)` (then reduced by the
  platform to a machine-sized value).  SHA-256 is a fixed deterministic
  function of its input string, so we carry the digest *input* string
  `hash_str` itself as the token: equal inputs give equal digests, and the
  collisions the program actually exhibits arise already at the level of
  the input string (field concatenation without a separator, and the
  Python rendering of `None` as the text `"None"`).
* The SQLite table `actions (action_hash INT PRIMARY KEY, action_json
  TEXT UNIQUE)` is an association list from token to Action, appended on
  `INSERT OR IGNORE` only when the key is absent; pydantic's
  `action.json()` / `Action(**json.loads(..))` round-trip is the identity
  on the three fields, so the stored value is the Action itself.
* Handlers are pure functions from their inputs (including the entries
  returned by the network fetch, passed as a parameter) to the list of
  repository registrations, fetches and chat sends they perform.
-/

namespace BookBot

/-- `Action` from `main.py` (pydantic model): a navigation intent with
`action_type`, `url` and optional `value`. -/
structure Action where
  action_type : String
  url : String
  value : Option String := none
deriving DecidableEq, Repr

/-- Python's f-string rendering of an `Optional[str]`: `None` prints as
the four-character text `"None"`. -/
def pyStrOpt : Option String → String
  | none => "None"
  | some s => s

/-- The digest input built by `Action.__hash__`:
`f"{self.action_type}{self.url}{self.value}"` (plain concatenation,
no separator). -/
def Action.hashStr (a : Action) : String :=
  a.action_type ++ a.url ++ pyStrOpt a.value

/-- The token of an Action.  In the source this is the SHA-256 digest of
`hashStr` read as an integer; since the digest is a fixed deterministic
function, the embedding carries the digest input itself (see module
docstring). -/
def Action.token (a : Action) : String :=
  a.hashStr

/-- The persistent `actions` table: an association list token ↦ Action. -/
abbrev Store := List (String × Action)

/-- `SELECT action_json FROM actions WHERE action_hash = ?` followed by
`fetchone()`: the first row with the given key, or `None`. -/
def findAction (s : Store) (h : String) : Option Action :=
  match s with
  | [] => none
  | (k, a) :: t => if k = h then some a else findAction t h

/-- `SQLiteActionRepository.add`: `INSERT OR IGNORE` keyed by the action's
hash — appends the row only when the key is not already present. -/
def SQLiteActionRepository.add (s : Store) (a : Action) : Store :=
  match findAction s a.token with
  | some _ => s
  | none => s ++ [(a.token, a)]

/-- `SQLiteActionRepository.get`: look the token up and deserialize, or
return `None` when no row matches. -/
def SQLiteActionRepository.get (s : Store) (h : String) : Option Action :=
  findAction s h

/-- The spec's `put`: register the Action and hand back its token (callers
in `main.py` use `hash(action)` as the button payload after `add`). -/
def SQLiteActionRepository.put (s : Store) (a : Action) : Store × String :=
  (SQLiteActionRepository.add s a, a.token)

/-- Keys of the store are pairwise distinct — the `PRIMARY KEY` constraint;
it holds of the empty table and is preserved by `add`. -/
def NodupKeys (s : Store) : Prop :=
  (s.map Prod.fst).Nodup

/-- Number of rows stored under a key. -/
def countKey (s : Store) (h : String) : Nat :=
  (s.filter (fun p => p.1 == h)).length

namespace StoreLemmas

theorem findAction_eq_none_iff (s : Store) (h : String) :
    findAction s h = none ↔ ∀ p ∈ s, p.1 ≠ h := by
  induction s with
  | nil => simp [findAction]
  | cons p t ih =>
    by_cases hk : p.1 = h
    · simp [findAction, hk]
    · simp only [findAction, hk, if_neg, List.mem_cons]
      constructor
      · rintro hn q (rfl | hq)
        · exact hk
        · exact (ih.mp hn) q hq
      · intro hall
        exact ih.mpr fun q hq => hall q (Or.inr hq)

theorem mem_of_findAction_eq_some {s : Store} {h : String} {a : Action}
    (hf : findAction s h = some a) : (h, a) ∈ s := by
  induction s with
  | nil => simp [findAction] at hf
  | cons p t ih =>
    obtain ⟨k, b⟩ := p
    by_cases hk : k = h
    · subst hk
      simp only [findAction, if_pos] at hf
      cases hf
      exact List.mem_cons_self _ _
    · simp only [findAction, hk, if_neg] at hf
      exact List.mem_cons_of_mem _ (ih hf)

theorem findAction_append_of_none {s : Store} {h : String}
    (hn : findAction s h = none) (l : Store) :
    findAction (s ++ l) h = findAction l h := by
  induction s with
  | nil => simp
  | cons p t ih =>
    by_cases hk : p.1 = h
    · simp [findAction, hk] at hn
    · simp [findAction, hk] at hn ⊢
      exact ih hn

theorem add_of_some {s : Store} {a : Action} {b : Action}
    (hf : findAction s a.token = some b) :
    SQLiteActionRepository.add s a = s := by
  simp [SQLiteActionRepository.add, hf]

theorem add_of_none {s : Store} {a : Action}
    (hf : findAction s a.token = none) :
    SQLiteActionRepository.add s a = s ++ [(a.token, a)] := by
  simp [SQLiteActionRepository.add, hf]

theorem findAction_add_self (s : Store) (a : Action) :
    ∃ b, findAction (SQLiteActionRepository.add s a) a.token = some b := by
  cases hf : findAction s a.token with
  | some b => exact ⟨b, by rw [add_of_some hf, hf]⟩
  | none =>
    refine ⟨a, ?_⟩
    rw [add_of_none hf, findAction_append_of_none hf]
    simp [findAction]

theorem add_add (s : Store) (a : Action) :
    SQLiteActionRepository.add (SQLiteActionRepository.add s a) a =
      SQLiteActionRepository.add s a := by
  obtain ⟨b, hb⟩ := findAction_add_self s a
  exact add_of_some hb

theorem countKey_eq_zero_of_not_mem_keys {s : Store} {h : String}
    (hk : h ∉ s.map Prod.fst) : countKey s h = 0 := by
  unfold countKey
  rw [List.length_eq_zero, List.filter_eq_nil_iff]
  intro q hq
  simp only [beq_iff_eq]
  intro hq1
  exact hk (hq1 ▸ List.mem_map_of_mem Prod.fst hq)

theorem countKey_eq_zero_of_none {s : Store} {h : String}
    (hn : findAction s h = none) : countKey s h = 0 := by
  have hall := (findAction_eq_none_iff s h).mp hn
  unfold countKey
  rw [List.length_eq_zero, List.filter_eq_nil_iff]
  intro p hp
  simpa using hall p hp

theorem countKey_eq_one_of_mem {s : Store} {h : String} {a : Action}
    (hnd : NodupKeys s) (hm : (h, a) ∈ s) : countKey s h = 1 := by
  induction s with
  | nil => simp at hm
  | cons p t ih =>
    obtain ⟨k, b⟩ := p
    unfold NodupKeys at hnd
    simp only [List.map_cons, List.nodup_cons] at hnd
    rcases List.mem_cons.mp hm with he | hm'
    · injection he with h1 h2
      subst h1
      have h0 : countKey t h = 0 := countKey_eq_zero_of_not_mem_keys hnd.1
      unfold countKey at h0 ⊢
      rw [List.filter_cons]
      simp [h0]
    · have hne : k ≠ h := by
        intro he
        apply hnd.1
        rw [he]
        exact List.mem_map_of_mem Prod.fst hm'
      have h1 := ih hnd.2 hm'
      unfold countKey at h1 ⊢
      rw [List.filter_cons]
      simp [hne, h1]

theorem nodupKeys_add {s : Store} (hnd : NodupKeys s) (a : Action) :
    NodupKeys (SQLiteActionRepository.add s a) := by
  cases hf : findAction s a.token with
  | some b => rw [add_of_some hf]; exact hnd
  | none =>
    have hall := (findAction_eq_none_iff s a.token).mp hf
    rw [add_of_none hf]
    unfold NodupKeys at hnd ⊢
    rw [List.map_append, List.nodup_append]
    refine ⟨hnd, by simp, ?_⟩
    intro k hk
    simp only [List.map_cons, List.map_nil, List.mem_singleton]
    intro he
    obtain ⟨p, hp, rfl⟩ := List.mem_map.mp hk
    exact hall p hp he

end StoreLemmas

/-- First step of `handle_callback` (`main.py` line 210): the callback
payload is looked up in the repository; the dispatch that follows receives
whatever `get` returned. -/
def resolveAction (s : Store) (callback_data : String) : Option Action :=
  SQLiteActionRepository.get s callback_data

/-- **C1** (counterexample): the token is *not* unique to the
`(kind, source_url, parameter)` triple.  The digest input concatenates the
fields with no separator and renders a missing `value` as the text
`"None"`, so `Action("a", "b", None)` and `Action("a", "b", "None")` are
two different Actions with the same token. -/
theorem c1_token_not_unique_counterexample :
    (Action.mk "a" "b" none).token = (Action.mk "a" "b" (some "None")).token ∧
      Action.mk "a" "b" none ≠ Action.mk "a" "b" (some "None") := by
  decide

/-- **C1** (amended): the token is a deterministic function of the
`(kind, source_url, parameter)` triple — equal triples always give equal
tokens, independently of any process state — but it is not injective:
distinct triples whose concatenated string forms coincide share a token. -/
theorem c1_token_deterministic_but_not_injective :
    (∀ a1 a2 : Action, a1.action_type = a2.action_type → a1.url = a2.url →
      a1.value = a2.value → a1.token = a2.token) ∧
    ∃ a1 a2 : Action, a1.token = a2.token ∧ a1 ≠ a2 := by
  constructor
  · intro a1 a2 h1 h2 h3
    unfold Action.token Action.hashStr
    rw [h1, h2, h3]
  · exact ⟨Action.mk "a" "b" none, Action.mk "a" "b" (some "None"),
      by decide, by decide⟩

/-- Witness for the amended C1 at a concrete triple. -/
theorem c1_witness :
    (Action.mk "k" "u" (some "v")).token = (Action.mk "k" "u" (some "v")).token :=
  c1_token_deterministic_but_not_injective.1
    (Action.mk "k" "u" (some "v")) (Action.mk "k" "u" (some "v")) rfl rfl rfl

/-- **C2** (counterexample): the round-trip `get (put A) = A` fails when a
different Action with the same token was registered first: registering
`Action("a", "b", "None")` and then `Action("a", "b", None)` makes the
second `put` an ignored insert, and `get` of the returned token yields the
first Action, not the second. -/
theorem c2_roundtrip_counterexample :
    SQLiteActionRepository.get
        (SQLiteActionRepository.put
          (SQLiteActionRepository.put [] (Action.mk "a" "b" (some "None"))).1
          (Action.mk "a" "b" none)).1
        (SQLiteActionRepository.put
          (SQLiteActionRepository.put [] (Action.mk "a" "b" (some "None"))).1
          (Action.mk "a" "b" none)).2
      = some (Action.mk "a" "b" (some "None")) ∧
    Action.mk "a" "b" (some "None") ≠ Action.mk "a" "b" none := by
  decide

/-- **C2** (amended): `get (put A) = A` holds whenever the store does not
already bind `A`'s token to a different Action (in particular on any store
in which `A`'s token is fresh, and after registering `A` itself). -/
theorem c2_roundtrip (s : Store) (a : Action)
    (hfree : ∀ b : Action, (a.token, b) ∈ s → b = a) :
    SQLiteActionRepository.get (SQLiteActionRepository.put s a).1
      (SQLiteActionRepository.put s a).2 = some a := by
  unfold SQLiteActionRepository.put SQLiteActionRepository.get
  cases hf : findAction s a.token with
  | some b =>
    rw [StoreLemmas.add_of_some hf, hf]
    exact congrArg some (hfree b (StoreLemmas.mem_of_findAction_eq_some hf))
  | none =>
    rw [StoreLemmas.add_of_none hf, StoreLemmas.findAction_append_of_none hf]
    simp [findAction]

/-- Witness for the amended C2 on the empty store. -/
theorem c2_roundtrip_witness :
    SQLiteActionRepository.get
        (SQLiteActionRepository.put [] (Action.mk "t" "u" none)).1
        (SQLiteActionRepository.put [] (Action.mk "t" "u" none)).2
      = some (Action.mk "t" "u" none) :=
  c2_roundtrip [] (Action.mk "t" "u" none) (by intro b hb; simp at hb)

/-- **C3**: registration is idempotent: on any store with distinct keys
(the `PRIMARY KEY` invariant), `put A` twice returns the same token both
times, the second call leaves the store exactly as the first left it, and
afterwards exactly one row is stored under `A`'s token. -/
theorem c3_put_idempotent (s : Store) (a : Action) (hnd : NodupKeys s) :
    (SQLiteActionRepository.put s a).2 =
      (SQLiteActionRepository.put (SQLiteActionRepository.put s a).1 a).2 ∧
    (SQLiteActionRepository.put (SQLiteActionRepository.put s a).1 a).1 =
      (SQLiteActionRepository.put s a).1 ∧
    countKey (SQLiteActionRepository.put s a).1 a.token = 1 := by
  refine ⟨rfl, StoreLemmas.add_add s a, ?_⟩
  obtain ⟨b, hb⟩ := StoreLemmas.findAction_add_self s a
  exact StoreLemmas.countKey_eq_one_of_mem (StoreLemmas.nodupKeys_add hnd a)
    (StoreLemmas.mem_of_findAction_eq_some hb)

/-- Witness for C3 on the empty store. -/
theorem c3_put_idempotent_witness :
    (SQLiteActionRepository.put [] (Action.mk "t" "u" (some "v"))).2 =
      (SQLiteActionRepository.put
        (SQLiteActionRepository.put [] (Action.mk "t" "u" (some "v"))).1
        (Action.mk "t" "u" (some "v"))).2 ∧
    (SQLiteActionRepository.put
        (SQLiteActionRepository.put [] (Action.mk "t" "u" (some "v"))).1
        (Action.mk "t" "u" (some "v"))).1 =
      (SQLiteActionRepository.put [] (Action.mk "t" "u" (some "v"))).1 ∧
    countKey (SQLiteActionRepository.put [] (Action.mk "t" "u" (some "v"))).1
      (Action.mk "t" "u" (some "v")).token = 1 :=
  c3_put_idempotent [] (Action.mk "t" "u" (some "v")) (by simp [NodupKeys])

/-- **C10**: a token with no row in the store resolves to `None` — `get`
returns `None` rather than raising or producing a sentinel — so the
dispatch step of `handle_callback` is reached with no Action value. -/
theorem c10_get_unknown_token (s : Store) (tok : String)
    (habs : ∀ p ∈ s, p.1 ≠ tok) :
    SQLiteActionRepository.get s tok = none ∧ resolveAction s tok = none := by
  have h := (StoreLemmas.findAction_eq_none_iff s tok).mpr habs
  exact ⟨h, h⟩

/-- Witness for C10: a store holding one real action, probed with a token
it does not contain. -/
theorem c10_get_unknown_token_witness :
    SQLiteActionRepository.get
        [((Action.mk "entry" "u" (some "0")).token, Action.mk "entry" "u" (some "0"))]
        "zzz" = none ∧
    resolveAction
        [((Action.mk "entry" "u" (some "0")).token, Action.mk "entry" "u" (some "0"))]
        "zzz" = none :=
  c10_get_unknown_token
    [((Action.mk "entry" "u" (some "0")).token, Action.mk "entry" "u" (some "0"))]
    "zzz" (by decide)


/-!  ## Session (cookie) lifecycle — `cookies_are_expired` / `get_cookies`  -/

/-- A cookie as the session logic sees it: only the optional `expires`
timestamp is inspected (`cookie.expires`). -/
structure Cookie where
  expires : Option Int
deriving DecidableEq, Repr

/-- The outcome of the re-login request `requests.get(f"{base_url}/polka/",
headers=...)`: either an exception (network error) or a response carrying a
status code and a cookie jar.  `requests.get` does *not* raise on a
non-2xx status. -/
structure LoginResponse where
  status : Nat
  cookies : List Cookie
deriving DecidableEq, Repr

/-- `cookies_are_expired` (`main.py` lines 38-41): collect the truthy
`expires` fields (`if cookie.expires` drops both `None` and `0`), take
their minimum (0 when there are none) and compare with the current time. -/
def cookies_are_expired (now : Int) (cookies : List Cookie) : Bool :=
  let expires := cookies.filterMap
    (fun c => match c.expires with
      | none => none
      | some e => if e = 0 then none else some e)
  let min_expires := expires.min?.getD 0
  min_expires < now

/-- `get_cookies` (`main.py` lines 44-55): when the current jar is expired,
re-login; an exception is caught and yields `[]`, while any response —
whatever its status — has its cookie jar adopted wholesale. -/
def get_cookies (now : Int) (current : List Cookie)
    (login : Except Unit LoginResponse) : List Cookie :=
  if cookies_are_expired now current then
    match login with
    | .ok resp => resp.cookies
    | .error _ => []
  else current

/-- Which path `get_entries` (`main.py` lines 116-123) takes: with a
non-empty cookie jar it issues the authenticated GET, otherwise it hands
the URL straight to the feed parser (unauthenticated). -/
inductive FetchMode where
  | authenticated
  | unauthenticated
deriving DecidableEq, Repr

/-- The `if cookies:` test of `get_entries`. -/
def fetchMode (cookies : List Cookie) : FetchMode :=
  if cookies.isEmpty then .unauthenticated else .authenticated

/-- **C4** (counterexample): a re-login answered with a non-2xx response is
*not* detected — no status check and no `raise_for_status` on this path —
so when the 403 response happens to set a cookie the session is that
cookie jar, not the empty session the claim requires. -/
theorem c4_non2xx_counterexample :
    get_cookies 1 [] (.ok (LoginResponse.mk 403 [Cookie.mk (some 100)])) =
      [Cookie.mk (some 100)] ∧
    get_cookies 1 [] (.ok (LoginResponse.mk 403 [Cookie.mk (some 100)])) ≠ [] := by
  decide

/-- **C4** (amended): a *network error* (exception) during re-login is
caught and yields the empty session — the handler returns normally, no
error propagates — and with an empty session the next fetch proceeds
unauthenticated; a response, by contrast, has its cookie jar adopted
regardless of its status code. -/
theorem c4_login_failure_yields_empty_session (now : Int)
    (current : List Cookie) (resp : LoginResponse)
    (hexp : cookies_are_expired now current = true) :
    get_cookies now current (.error ()) = [] ∧
    fetchMode (get_cookies now current (.error ())) = .unauthenticated ∧
    get_cookies now current (.ok resp) = resp.cookies := by
  refine ⟨?_, ?_, ?_⟩ <;> simp [get_cookies, hexp, fetchMode]

/-- Witness for the amended C4: empty jar at time 1 is expired. -/
theorem c4_witness :
    get_cookies 1 [] (.error ()) = [] ∧
    fetchMode (get_cookies 1 [] (.error ())) = .unauthenticated ∧
    get_cookies 1 [] (.ok (LoginResponse.mk 500 [])) =
      (LoginResponse.mk 500 []).cookies :=
  c4_login_failure_yields_empty_session 1 [] (LoginResponse.mk 500 []) (by decide)

/-!  ## Pagination URL derivation — `get_page_url` / `handle_search`  -/

/-- Python's `str.startswith`, over the character lists. -/
def startsWithChars : List Char → List Char → Bool
  | _, [] => true
  | [], _ :: _ => false
  | c :: s, p :: ps => if c = p then startsWithChars s ps else false

/-- `url.startswith(pre)`. -/
def pyStartswith (s pre : String) : Bool :=
  startsWithChars s.data pre.data

/-- `base_url` (`main.py` line 20) — note the `https` scheme. -/
def base_url : String := "https://flibusta.is/opds"

/-- `get_page_url` (`main.py` lines 165-170): query-parameter pagination
for URLs starting with the literal `http://flibusta.is/opds/search?`,
path-segment pagination otherwise; page 0 is the unmodified URL. -/
def get_page_url (url : String) (page : Int) : String :=
  if pyStartswith url "http://flibusta.is/opds/search?" then
    if page > 0 then url ++ "&pageNumber=" ++ toString page else url
  else
    if page > 0 then url ++ "/" ++ toString page else url

/-- The search URL `handle_search` (`main.py` lines 173-180) builds for an
Action — rooted at `base_url`, i.e. at the `https` scheme. -/
def searchUrl (action : Action) : String :=
  if action.action_type = "search_authors" then
    base_url ++ "/search?searchType=authors&searchTerm=\"" ++ pyStrOpt action.value ++ "\""
  else if action.action_type = "search_books" then
    base_url ++ "/search?searchType=books&searchTerm=\"" ++ pyStrOpt action.value ++ "\""
  else
    base_url ++ "//search?searchTerm=\"" ++ pyStrOpt action.value ++ "\""

/-- **C5** (code bug): the search URLs the search handler itself constructs
start with `https://flibusta.is/opds/search?`, but `get_page_url` tests for
the `http://` prefix, so they fall into the path-segment branch: page 1 of
a `"Dune"` book search becomes `...searchTerm="Dune"/1` instead of
`...searchTerm="Dune"&pageNumber=1`.  (Page 0 is the unmodified URL, as
claimed, and URLs that do carry the literal `http://` prefix do get the
query-parameter form.) -/
theorem c5_search_pagination_uses_path_branch :
    pyStartswith (searchUrl (Action.mk "search_books" "" (some "Dune")))
        "http://flibusta.is/opds/search?" = false ∧
    get_page_url (searchUrl (Action.mk "search_books" "" (some "Dune"))) 1 =
      searchUrl (Action.mk "search_books" "" (some "Dune")) ++ "/1" ∧
    get_page_url (searchUrl (Action.mk "search_books" "" (some "Dune"))) 0 =
      searchUrl (Action.mk "search_books" "" (some "Dune")) ∧
    get_page_url "http://flibusta.is/opds/search?searchTerm=x" 1 =
      "http://flibusta.is/opds/search?searchTerm=x&pageNumber=1" := by
  decide


/-!  ## Chat transport: buttons, sends, chunking  -/

/-- An `InlineKeyboardButton`: either carrying callback data (a token) or a
plain external URL. -/
inductive Button where
  | callback (label : String) (tok : String)
  | link (label : String) (url : String)
deriving DecidableEq, Repr

/-- One outbound chat operation (`send_message` / `send_photo`). -/
inductive Sent where
  | msg (text : String) (markup : Option (List (List Button)))
  | photo (image : String) (caption : Option String)
      (markup : Option (List (List Button)))
deriving DecidableEq, Repr

/-- The text of a sent message (empty for a photo). -/
def sentText : Sent → String
  | .msg t _ => t
  | .photo _ _ _ => ""

/-- The reply markup attached to a send. -/
def sentMarkup : Sent → Option (List (List Button))
  | .msg _ mk => mk
  | .photo _ _ mk => mk

/-- `text or "..."` — the falsy empty string is replaced. -/
def pyOr (s : String) : String :=
  if s = "" then "..." else s

/-- Python's `[text[i:i+M] for i in range(0, len(text), M)]` over the
character list, with positive step `M = m + 1`: the first `m + 1`
characters, then recurse on the rest. -/
def chunkList (m : Nat) : List Char → List (List Char)
  | [] => []
  | c :: cs => (c :: cs.take m) :: chunkList m (cs.drop m)
termination_by l => l.length
decreasing_by simp; omega

/-- The chunking of `main.py` lines 281/289/303 at limit `M` (the source
always uses `M = 4096`; Python would raise on a zero step, which the
source never produces, so `M = 0` is mapped to no chunks). -/
def chunkText (M : Nat) (text : String) : List String :=
  (chunkList (M - 1) text.data).map (fun l => String.mk l)

/-- The chunked send of `main.py` lines 282-285 (also 290-293, 304-313):
every chunk but the last is sent bare, the last carries the reply markup.
(`messages[-1]` on an empty list would raise; the composed text is never
empty in the source, so the list is never empty there.) -/
def chunkedSend (msgs : List String) (kb : List (List Button)) : List Sent :=
  match msgs.getLast? with
  | none => []
  | some last =>
      msgs.dropLast.map (fun t => Sent.msg (pyOr t) none) ++
        [Sent.msg (pyOr last) (some kb)]

namespace ChunkLemmas

theorem chunkList_length (m : Nat) (cs : List Char) :
    (chunkList m cs).length = (cs.length + m) / (m + 1) := by
  induction cs using chunkList.induct m with
  | case1 => simp [chunkList, Nat.div_eq_of_lt (Nat.lt_succ_of_le (Nat.le_refl m))]
  | case2 c cs ih =>
    rw [chunkList, List.length_cons, ih, List.length_drop, List.length_cons]
    rcases le_or_lt m cs.length with h | h
    · rw [Nat.sub_add_cancel h,
        show cs.length + 1 + m = cs.length + (m + 1) by omega,
        Nat.add_div_right _ (Nat.succ_pos m)]
    · rw [show cs.length - m + m = m by omega,
        Nat.div_eq_of_lt (by omega),
        show cs.length + 1 + m = cs.length + (m + 1) by omega,
        Nat.add_div_right _ (Nat.succ_pos m),
        Nat.div_eq_of_lt (by omega)]

theorem chunkList_flatten (m : Nat) (cs : List Char) :
    (chunkList m cs).flatten = cs := by
  induction cs using chunkList.induct m with
  | case1 => simp [chunkList]
  | case2 c cs ih =>
    rw [chunkList, List.flatten_cons, ih]
    simp [List.take_append_drop]

theorem chunkList_ne_nil (m : Nat) (cs : List Char) :
    ∀ l ∈ chunkList m cs, l ≠ [] := by
  induction cs using chunkList.induct m with
  | case1 => simp [chunkList]
  | case2 c cs ih =>
    rw [chunkList]
    intro l hl
    rcases List.mem_cons.mp hl with rfl | hl'
    · simp
    · exact ih l hl'

theorem chunkText_length (m : Nat) (text : String) :
    (chunkText (m + 1) text).length = (text.length + (m + 1) - 1) / (m + 1) := by
  show ((chunkList m text.data).map _).length = _
  rw [List.length_map, chunkList_length]
  rfl

theorem chunkText_join (m : Nat) (text : String) :
    String.join (chunkText (m + 1) text) = text := by
  apply String.ext
  rw [String.data_join]
  show (((chunkList m text.data).map (fun l => String.mk l)).map String.data).flatten = text.data
  rw [List.map_map]
  have h : String.data ∘ (fun l : List Char => String.mk l) = id := rfl
  rw [h, List.map_id, chunkList_flatten]

theorem chunkText_ne_nil (m : Nat) (text : String) (h : text ≠ "") :
    chunkText (m + 1) text ≠ [] := by
  show (chunkList m text.data).map _ ≠ []
  cases hd : text.data with
  | nil => exact absurd (String.ext hd) h
  | cons c cs => simp [chunkList]

theorem chunkText_mem_ne_empty (m : Nat) (text : String) :
    ∀ s ∈ chunkText (m + 1) text, s ≠ "" := by
  intro s hs
  obtain ⟨l, hl, rfl⟩ := List.mem_map.mp hs
  intro he
  exact chunkList_ne_nil m text.data l hl (congrArg String.data he)

theorem map_pyOr_of_ne_empty (msgs : List String)
    (h : ∀ s ∈ msgs, s ≠ "") : msgs.map pyOr = msgs := by
  induction msgs with
  | nil => rfl
  | cons x t ih =>
    rw [List.map_cons, ih fun s hs => h s (List.mem_cons_of_mem _ hs)]
    simp [pyOr, h x (List.mem_cons_self _ _)]

theorem chunkedSend_spec (msgs : List String) (kb : List (List Button))
    (hne : msgs ≠ []) :
    (chunkedSend msgs kb).length = msgs.length ∧
    (chunkedSend msgs kb).map sentText = msgs.map pyOr ∧
    (∀ s ∈ (chunkedSend msgs kb).dropLast, sentMarkup s = none) ∧
    ((chunkedSend msgs kb).map sentMarkup).getLast? = some (some kb) := by
  obtain ⟨l, last, rfl⟩ : ∃ l last, msgs = l ++ [last] :=
    ⟨msgs.dropLast, msgs.getLast hne, (List.dropLast_append_getLast hne).symm⟩
  unfold chunkedSend
  rw [List.getLast?_concat, List.dropLast_concat]
  refine ⟨?_, ?_, ?_, ?_⟩
  · simp
  · simp [sentText]
  · intro s hs
    rw [List.dropLast_concat] at hs
    obtain ⟨t, _, rfl⟩ := List.mem_map.mp hs
    rfl
  · rw [List.map_append, List.map_map, List.map_cons, List.map_nil,
      List.getLast?_concat]
    rfl

end ChunkLemmas


/-- **C8**: chunking a non-empty display text of length `L` under a
positive transport limit `M = m + 1` produces `⌈L / M⌉` chunks, sending
them sends exactly one message per chunk whose texts are the chunks in
order (each chunk is non-empty, so the `or "..."` fallback never fires),
their concatenation reproduces the text, and the reply markup is attached
to the final chunk only. -/
theorem c8_chunking (m : Nat) (kb : List (List Button)) (text : String)
    (h : text ≠ "") :
    (chunkText (m + 1) text).length = (text.length + (m + 1) - 1) / (m + 1) ∧
    String.join (chunkText (m + 1) text) = text ∧
    (chunkedSend (chunkText (m + 1) text) kb).length =
      (chunkText (m + 1) text).length ∧
    (chunkedSend (chunkText (m + 1) text) kb).map sentText =
      chunkText (m + 1) text ∧
    (∀ s ∈ (chunkedSend (chunkText (m + 1) text) kb).dropLast,
      sentMarkup s = none) ∧
    ((chunkedSend (chunkText (m + 1) text) kb).map sentMarkup).getLast? =
      some (some kb) := by
  obtain ⟨h1, h2, h3, h4⟩ :=
    ChunkLemmas.chunkedSend_spec (chunkText (m + 1) text) kb
      (ChunkLemmas.chunkText_ne_nil m text h)
  refine ⟨ChunkLemmas.chunkText_length m text, ChunkLemmas.chunkText_join m text,
    h1, ?_, h3, h4⟩
  rw [h2, ChunkLemmas.map_pyOr_of_ne_empty _ (ChunkLemmas.chunkText_mem_ne_empty m text)]

/-- Witness for C8: `"abcdefg"` at limit 3 gives `⌈7/3⌉ = 3` chunks that
concatenate back to the text. -/
theorem c8_chunking_witness :
    (chunkText 3 "abcdefg").length = ("abcdefg".length + 3 - 1) / 3 ∧
    String.join (chunkText 3 "abcdefg") = "abcdefg" ∧
    ((chunkedSend (chunkText 3 "abcdefg") []).map sentMarkup).getLast? =
      some (some []) :=
  ⟨(c8_chunking 2 [] "abcdefg" (by decide)).1,
   (c8_chunking 2 [] "abcdefg" (by decide)).2.1,
   (c8_chunking 2 [] "abcdefg" (by decide)).2.2.2.2.2⟩

/-!  ## Free-text entry point — `handle_message`  -/

/-- The net effect of one handler run: the feed URLs it fetched, the
Actions it registered (in registration order) and the chat operations it
performed (in order). -/
structure HandlerOut where
  fetches : List String
  registered : List Action
  sent : List Sent
deriving DecidableEq, Repr

/-- `message.replace(" ", "%20")` (`main.py` line 143), over the character
list: every space becomes the three characters `%20`. -/
def replaceSpaces (s : String) : String :=
  String.mk (s.data.flatMap (fun c => if c = ' ' then ['%', '2', '0'] else [c]))

/-- `handle_message` (`main.py` lines 139-162): build and register the two
search Actions carrying the space-escaped text, send one message with the
two search buttons; no feed fetch. -/
def handle_message (text : String) : HandlerOut :=
  let message := replaceSpaces text
  let action_books : Action := ⟨"search_books", "", some message⟩
  let action_authors : Action := ⟨"search_authors", "", some message⟩
  { fetches := [],
    registered := [action_books, action_authors],
    sent := [Sent.msg ("Поиск \"" ++ text ++ "\"")
      (some [[Button.callback "Поиск по книгам" action_books.token,
              Button.callback "Поиск по авторам" action_authors.token]])] }

/-- A character list without spaces is unchanged by the escaping. -/
theorem flatMap_escape_of_no_space (l : List Char) (h : ∀ c ∈ l, c ≠ ' ') :
    (l.flatMap (fun c => if c = ' ' then ['%', '2', '0'] else [c])) = l := by
  induction l with
  | nil => rfl
  | cons c cs ih =>
    rw [List.flatMap_cons, if_neg (h c (List.mem_cons_self _ _)),
      ih fun d hd => h d (List.mem_cons_of_mem _ hd)]
    rfl

/-- A text without spaces is left unchanged by the escaping. -/
theorem replaceSpaces_of_no_space (s : String) (h : ∀ c ∈ s.data, c ≠ ' ') :
    replaceSpaces s = s := by
  apply String.ext
  show (s.data.flatMap (fun c => if c = ' ' then ['%', '2', '0'] else [c])) = s.data
  exact flatMap_escape_of_no_space s.data h

/-- **C7** (counterexample): the registered search Actions do *not* carry
the raw message text unchanged — spaces are replaced with `%20` first, so
the inbound text `"a b"` is registered as `"a%20b"`. -/
theorem c7_raw_text_counterexample :
    (handle_message "a b").registered.map Action.value =
      [some "a%20b", some "a%20b"] ∧
    (some "a%20b" : Option String) ≠ some "a b" := by
  decide

/-- **C7** (amended): every inbound text registers exactly two Actions —
`search_books` then `search_authors` — both carrying the text with each
space replaced by `%20` (hence the raw text itself whenever it contains no
space), presents exactly one message with the two search buttons, and
performs no catalog fetch. -/
theorem c7_two_search_actions (text : String) :
    (handle_message text).registered =
      [Action.mk "search_books" "" (some (replaceSpaces text)),
       Action.mk "search_authors" "" (some (replaceSpaces text))] ∧
    (handle_message text).registered.length = 2 ∧
    (handle_message text).fetches = [] ∧
    (handle_message text).sent =
      [Sent.msg ("Поиск \"" ++ text ++ "\"")
        (some [[Button.callback "Поиск по книгам"
                  (Action.mk "search_books" "" (some (replaceSpaces text))).token,
                Button.callback "Поиск по авторам"
                  (Action.mk "search_authors" "" (some (replaceSpaces text))).token]])] ∧
    ((∀ c ∈ text.data, c ≠ ' ') →
      (handle_message text).registered.map Action.value = [some text, some text]) := by
  refine ⟨rfl, rfl, rfl, rfl, ?_⟩
  intro h
  show [some (replaceSpaces text), some (replaceSpaces text)] = _
  rw [replaceSpaces_of_no_space text h]

/-- Witness for C7 at the spec's own example, the space-free text
`"Dune"`. -/
theorem c7_two_search_actions_witness :
    (handle_message "Dune").fetches = [] ∧
    (handle_message "Dune").registered.map Action.value =
      [some "Dune", some "Dune"] :=
  ⟨(c7_two_search_actions "Dune").2.2.1,
   (c7_two_search_actions "Dune").2.2.2.2 (by decide)⟩


/-!  ## Feed model and the `open_page` handler (`handle_callback`, `"page"` case)  -/

/-- `Link` from `main.py`: one affordance attached to an entry. -/
structure Link where
  href : String
  type : String
  title : Option String := none
  rel : Option String := none
deriving DecidableEq, Repr

/-- `Entry` from `main.py`: one catalog item. -/
structure Entry where
  text : String
  links : List Link
  summary : String := ""
  authors : Option (List String) := none
deriving DecidableEq, Repr

/-- The "back" Action a page handler would register:
`Action(action_type="page", url=action.url, value=str(int(action.value) - 1))`. -/
def prevAction (url : String) (page : Int) : Action :=
  ⟨"page", url, some (toString (page - 1))⟩

/-- The "next" Action:
`Action(action_type="page", url=action.url, value=str(int(action.value) + 1))`. -/
def nextAction (url : String) (page : Int) : Action :=
  ⟨"page", url, some (toString (page + 1))⟩

/-- The "Назад" (back) control button. -/
def backButton (url : String) (page : Int) : Button :=
  Button.callback "Назад" (prevAction url page).token

/-- The "Вперед" (next) control button. -/
def nextButton (url : String) (page : Int) : Button :=
  Button.callback "Вперед" (nextAction url page).token

/-- The per-entry Actions registered by the `"page"` case: one `entry`
Action per fetched entry, indexed within the fetched page. -/
def pageEntryActions (page_url : String) (entries : List Entry) : List Action :=
  entries.enum.map (fun p => Action.mk "entry" page_url (some (toString p.1)))

/-- The per-entry keyboard rows: one single-button row per entry. -/
def pageEntryRows (page_url : String) (entries : List Entry) : List (List Button) :=
  entries.enum.map (fun p =>
    [Button.callback p.2.text (Action.mk "entry" page_url (some (toString p.1))).token])

/-- The control row (`main.py` lines 322-330): "back" appended first, when
`page > 0`; "next" appended second, when the fetch returned entries. -/
def pageControlRow (url : String) (page : Int) (entries : List Entry) : List Button :=
  (if page > 0 then [backButton url page] else []) ++
    (if entries.isEmpty then [] else [nextButton url page])

/-- The keyboard the `"page"` case sends: entry rows, then the control row
when it is non-empty (`main.py` lines 331-332). -/
def handlePageKeyboard (url : String) (page : Int) (entries : List Entry) :
    List (List Button) :=
  pageEntryRows (get_page_url url page) entries ++
    (if (pageControlRow url page entries).isEmpty then []
     else [pageControlRow url page entries])

/-- The `"page"` case of `handle_callback` (`main.py` lines 314-338), for
an Action with base URL `url` and parsed page number `page`, given the
entries the fetch of the derived page URL returned. -/
def handle_page (url : String) (page : Int) (entries : List Entry) : HandlerOut :=
  { fetches := [get_page_url url page],
    registered := pageEntryActions (get_page_url url page) entries ++
      (if page > 0 then [prevAction url page] else []) ++
      (if entries.isEmpty then [] else [nextAction url page]),
    sent := [Sent.msg "Результаты поиска" (some (handlePageKeyboard url page entries))] }

/-- `int(action.value)` then dispatch: the `"page"` case as reached from
the callback Action itself. -/
def handle_page_action (a : Action) (entries : List Entry) : Option HandlerOut :=
  (a.value.bind String.toInt?).map (fun page => handle_page a.url page entries)

/-- The label of a button. -/
def buttonLabel : Button → String
  | .callback l _ => l
  | .link l _ => l

/-- The payload of a button: its callback token, or its URL. -/
def buttonPayload : Button → String
  | .callback _ t => t
  | .link _ u => u

/-- Tokens of `"page"` Actions and `"entry"` Actions never coincide: the
digest inputs differ already in their first character. -/
theorem page_entry_token_ne (u v : String) (w x : Option String) :
    (Action.mk "page" u w).token ≠ (Action.mk "entry" v x).token := by
  intro h
  have h2 := congrArg String.data h
  simp only [Action.token, Action.hashStr, String.data_append] at h2
  simp [List.cons_append] at h2

/-- **C6**: at page 0 the handler neither registers nor shows a "back"
control; when the fetch returned zero entries it neither registers nor
shows a "next" control (only the "back" control, when applicable, is
registered and shown); when both controls are present the final keyboard
row is exactly `[back, next]` — "back" before "next". -/
theorem c6_pagination_controls (url : String) (page : Int) (entries : List Entry) :
    (page = 0 →
      prevAction url page ∉ (handle_page url page entries).registered ∧
      ∀ row ∈ handlePageKeyboard url page entries, backButton url page ∉ row) ∧
    (entries = [] →
      (handle_page url page entries).registered =
        (if page > 0 then [prevAction url page] else []) ∧
      handlePageKeyboard url page entries =
        (if page > 0 then [[backButton url page]] else []) ∧
      ∀ row ∈ handlePageKeyboard url page entries, nextButton url page ∉ row) ∧
    (page > 0 → entries ≠ [] →
      (handlePageKeyboard url page entries).getLast? =
        some [backButton url page, nextButton url page]) := by
  refine ⟨?_, ?_, ?_⟩
  · rintro rfl
    constructor
    · intro hm
      rw [show (handle_page url 0 entries).registered =
          pageEntryActions (get_page_url url 0) entries ++
            (if (0 : Int) > 0 then [prevAction url 0] else []) ++
            (if entries.isEmpty then [] else [nextAction url 0]) from rfl,
        if_neg (by decide), List.append_nil] at hm
      rcases List.mem_append.mp hm with hm1 | hm2
      · obtain ⟨p, _, heq⟩ := List.mem_map.mp hm1
        have h3 : ("entry" : String) = "page" := congrArg Action.action_type heq
        exact absurd h3 (by decide)
      · by_cases hi : entries.isEmpty = true
        · rw [if_pos hi] at hm2
          simp at hm2
        · rw [if_neg hi] at hm2
          have hv : (some (toString ((0 : Int) + 1)) : Option String) =
              some (toString ((0 : Int) - 1)) :=
            congrArg Action.value (List.mem_singleton.mp hm2).symm
          exact absurd hv (by decide)
    · intro row hrow
      rw [handlePageKeyboard] at hrow
      rcases List.mem_append.mp hrow with hr | hr
      · obtain ⟨p, _, heq⟩ := List.mem_map.mp hr
        intro hb
        rw [← heq] at hb
        have ht : (prevAction url 0).token =
            (Action.mk "entry" (get_page_url url 0) (some (toString p.1))).token :=
          congrArg buttonPayload (List.mem_singleton.mp hb)
        exact page_entry_token_ne url (get_page_url url 0)
          (some (toString ((0 : Int) - 1))) (some (toString p.1)) ht
      · have hc0 : pageControlRow url 0 entries =
            (if entries.isEmpty then [] else [nextButton url 0]) := by
          rw [pageControlRow, if_neg (by decide), List.nil_append]
        rw [hc0] at hr
        by_cases hi : entries.isEmpty = true
        · rw [if_pos hi] at hr
          simp at hr
        · rw [if_neg hi,
            show ([nextButton url 0] : List Button).isEmpty = false from rfl,
            if_neg (by simp)] at hr
          have hre : row = [nextButton url 0] := List.mem_singleton.mp hr
          subst hre
          intro hb
          have h3 : ("Назад" : String) = "Вперед" :=
            congrArg buttonLabel (List.mem_singleton.mp hb)
          exact absurd h3 (by decide)
  · rintro rfl
    refine ⟨?_, ?_, ?_⟩
    · by_cases hp : page > 0 <;>
        simp [handle_page, pageEntryActions, hp]
    · by_cases hp : page > 0 <;>
        simp [handlePageKeyboard, pageEntryRows, pageControlRow, hp]
    · intro row hrow
      by_cases hp : page > 0
      · simp only [handlePageKeyboard, pageEntryRows, pageControlRow, hp,
          if_pos, List.enum_nil, List.map_nil, List.nil_append, List.isEmpty_nil,
          if_true] at hrow
        simp only [List.append_nil, List.isEmpty_cons, Bool.false_eq_true,
          if_false, List.mem_singleton] at hrow
        subst hrow
        intro hb
        have h3 : ("Вперед" : String) = "Назад" :=
          congrArg buttonLabel (List.mem_singleton.mp hb)
        exact absurd h3 (by decide)
      · simp [handlePageKeyboard, pageEntryRows, pageControlRow, hp] at hrow
  · intro hp hne
    have hi : entries.isEmpty = false := by
      cases entries with
      | nil => exact absurd rfl hne
      | cons e t => rfl
    have hc : pageControlRow url page entries =
        [backButton url page, nextButton url page] := by
      rw [pageControlRow, if_pos hp, hi]
      rfl
    rw [handlePageKeyboard, hc,
      show ([backButton url page, nextButton url page] : List Button).isEmpty = false
        from rfl,
      if_neg (by simp), List.getLast?_concat]

/-- Witness for C6: page 1 of a one-entry fetch shows `[back, next]` as
the final row. -/
theorem c6_pagination_controls_witness :
    (handlePageKeyboard "u" 1 [Entry.mk "t" [] "" none]).getLast? =
      some [backButton "u" 1, nextButton "u" 1] :=
  (c6_pagination_controls "u" 1 [Entry.mk "t" [] "" none]).2.2 (by decide) (by decide)


/-!  ## The `open_entry` image send (`handle_callback`, `"entry"` case)  -/

/-- The image branch of the `"entry"` case (`main.py` lines 273-293): a
composed caption shorter than 1024 characters is attempted as one
photo+caption+buttons message; a `BadRequest` from the platform on that
send — or a caption of length ≥ 1024 — sends the bare photo followed by
the 4096-sized text chunks, buttons on the final chunk only. -/
def sendEntryImage (image text : String) (kb : List (List Button))
    (badRequest : Bool) : List Sent :=
  if text.length < 1024 then
    if badRequest then
      Sent.photo image none none :: chunkedSend (chunkText 4096 text) kb
    else
      [Sent.photo image (some text) (some kb)]
  else
    Sent.photo image none none :: chunkedSend (chunkText 4096 text) kb

/-- **C9** (counterexample): a fitting caption is *not* sufficient for the
single combined message: when the combined send is rejected (`BadRequest`
— e.g. an unusable image reference), the handler falls back to the bare
photo followed by the chunked text, even though the caption fits. -/
theorem c9_badrequest_counterexample :
    ("t" : String).length < 1024 ∧
    sendEntryImage "img" "t" [] true =
      [Sent.photo "img" none none, Sent.msg "t" (some [])] ∧
    sendEntryImage "img" "t" [] true ≠ [Sent.photo "img" (some "t") (some [])] := by
  have h1 : chunkText 4096 "t" = ["t"] := by
    show (chunkList (4096 - 1) ("t").data).map (fun l => String.mk l) = ["t"]
    rw [show ("t").data = ['t'] from rfl]
    simp [chunkList]
  have h2 : sendEntryImage "img" "t" [] true =
      [Sent.photo "img" none none, Sent.msg "t" (some [])] := by
    rw [sendEntryImage, if_pos (by decide), if_pos rfl, h1]
    rfl
  exact ⟨by decide, h2, by rw [h2]; decide⟩

/-- **C9** (amended): the image, caption and buttons go out as a single
message iff the caption is shorter than 1024 characters *and* the platform
accepts the combined send; on a caption of length ≥ 1024 — or a
`BadRequest` rejection of the combined send — the image is sent alone,
followed by the text in 4096-sized chunks whose concatenation is the text,
with the button set attached to the final chunk only. -/
theorem c9_image_caption_fit (image text : String) (kb : List (List Button))
    (badRequest : Bool) (hne : text ≠ "") :
    (sendEntryImage image text kb badRequest =
        [Sent.photo image (some text) (some kb)] ↔
      text.length < 1024 ∧ badRequest = false) ∧
    (1024 ≤ text.length ∨ badRequest = true →
      sendEntryImage image text kb badRequest =
        Sent.photo image none none :: chunkedSend (chunkText 4096 text) kb ∧
      String.join (chunkText 4096 text) = text ∧
      (chunkedSend (chunkText 4096 text) kb).map sentText = chunkText 4096 text ∧
      (∀ s ∈ (chunkedSend (chunkText 4096 text) kb).dropLast, sentMarkup s = none) ∧
      ((chunkedSend (chunkText 4096 text) kb).map sentMarkup).getLast? =
        some (some kb)) := by
  constructor
  · constructor
    · intro h
      by_cases h1 : text.length < 1024
      · by_cases h2 : badRequest = true
        · rw [sendEntryImage, if_pos h1, if_pos h2] at h
          simp at h
        · exact ⟨h1, by simpa using h2⟩
      · rw [sendEntryImage, if_neg h1] at h
        simp at h
    · rintro ⟨h1, h2⟩
      rw [sendEntryImage, if_pos h1, h2]
      simp
  · intro h
    have hfall : sendEntryImage image text kb badRequest =
        Sent.photo image none none :: chunkedSend (chunkText 4096 text) kb := by
      rcases h with h | h
      · rw [sendEntryImage, if_neg (by omega)]
      · rw [sendEntryImage, h]
        by_cases h1 : text.length < 1024
        · rw [if_pos h1, if_pos rfl]
        · rw [if_neg h1]
    obtain ⟨_, hmap, hdrop, hlast⟩ :=
      ChunkLemmas.chunkedSend_spec (chunkText 4096 text) kb
        (ChunkLemmas.chunkText_ne_nil 4095 text hne)
    refine ⟨hfall, ChunkLemmas.chunkText_join 4095 text, ?_, hdrop, hlast⟩
    rw [hmap,
      ChunkLemmas.map_pyOr_of_ne_empty _ (ChunkLemmas.chunkText_mem_ne_empty 4095 text)]

/-- Witness for the amended C9: a fitting caption accepted by the platform
goes out as the single combined message. -/
theorem c9_image_caption_fit_witness :
    sendEntryImage "i" "t" [] false = [Sent.photo "i" (some "t") (some [])] :=
  (c9_image_caption_fit "i" "t" [] false (by decide)).1.mpr (by decide)


end BookBot
